import Mathlib

/-
Verification of the attribute-injection core of the EquityMedQA augmentation
script (src/dataset/EquityMedQA/augment_equitymedqa_attributes.py).

Python strings are modelled as `List Char` (ASCII text, which is the domain
of the script).  The regular-expression machinery of Python is embedded
explicitly:

  * `re.search` of the raw pattern (who is|who are|of .* descent) with
    re.IGNORECASE is `qualifiedSearch` run on the lowercased text (`.`
    matches any character except a newline);
  * `re.search`/`re.sub(pat, repl, s, count=1)` for the whole-word patterns
    `\b(A patient|a patient|The patient|the patient)\b` and
    `\b(Patients|patients)\b` is `subFirst`, which scans the text left to
    right and replaces the leftmost whole-word occurrence.  A word character
    is an (ASCII) alphanumeric character or an underscore, as in `re`.
    Since every alternative both starts and ends with a word character, the
    surrounding `\b` anchors amount to: the preceding character (if any) and
    the following character (if any) are not word characters.
  * `str.strip()` is `pyStrip` (removes ASCII whitespace from both ends);
  * Python truthiness of an `Optional[str]` (`if new_question:`) is
    `pyTruthy`: `None` and the empty string are falsy.

The replacement text handed to `re.sub` is inserted literally; this is
faithful for attribute strings containing no backslash (Python would expand
escape sequences in the replacement template), which is why several theorems
carry a no-backslash hypothesis on the attribute.
-/

namespace AutoFair

/-- characters removed by Python str.strip (ASCII whitespace). -/
def pyIsSpace (c : Char) : Bool :=
  c = ' ' || c = '\t' || c = '\n' || c = '\r' || c = '\x0b' || c = '\x0c'

/-- Python str.strip: drop whitespace from both ends. -/
def pyStrip (s : List Char) : List Char :=
  List.rdropWhile pyIsSpace (s.dropWhile pyIsSpace)

/-- scanning part of the regex alternative of .* descent : starting at the
current position, can zero or more non-newline characters be followed by the
literal text " descent"? -/
def descentScan : List Char → Bool
  | [] => false
  | c :: rest =>
      List.isPrefixOf " descent".toList (c :: rest) || ((c != '\n') && descentScan rest)

/-- existence of a match of the regex (who is|who are|of .* descent) in the
given text; run on lowercased text to model re.IGNORECASE. -/
def qualifiedSearch : List Char → Bool
  | [] => false
  | c :: rest =>
      List.isPrefixOf "who is".toList (c :: rest)
      || List.isPrefixOf "who are".toList (c :: rest)
      || (List.isPrefixOf "of ".toList (c :: rest) && descentScan ((c :: rest).drop 3))
      || qualifiedSearch rest

/-- the already-qualified check of the script: the regex is searched over
the stripped question text, case-insensitively. -/
def alreadyQualified (question : List Char) : Bool :=
  qualifiedSearch ((pyStrip question).map Char.toLower)

/-- regex word character (ASCII): alphanumeric or underscore. -/
def isWordChar (c : Char) : Bool :=
  c.isAlphanum || c = '_'

/-- whether the first character of the remaining text is a word character
(false at end of text). -/
def headIsWordChar : List Char → Bool
  | [] => false
  | c :: _ => isWordChar c

/-- try each regex alternative at the current position; an alternative
matches when it is a literal prefix of the text and the trailing word
boundary holds (next character absent or not a word character).  Returns the
text after the matched alternative. -/
def matchAlt (alts : List (List Char)) (s : List Char) : Option (List Char) :=
  match alts with
  | [] => none
  | p :: ps =>
      if List.isPrefixOf p s && !headIsWordChar (s.drop p.length) then some (s.drop p.length)
      else matchAlt ps s

/-- re.sub with count=1 for a whole-word alternation pattern: replace the
leftmost whole-word occurrence of one of the alternatives by repl, or return
none when there is no match (which is exactly when re.search fails).
prevW records whether a word character immediately precedes the current
position (false at the start of the text), giving the leading boundary. -/
def subFirst (alts : List (List Char)) (repl : List Char) (prevW : Bool) :
    List Char → Option (List Char)
  | [] => none
  | c :: rest =>
      if prevW then (subFirst alts repl (isWordChar c) rest).map (fun r => c :: r)
      else
        match matchAlt alts (c :: rest) with
        | some after => some (repl ++ after)
        | none => (subFirst alts repl (isWordChar c) rest).map (fun r => c :: r)

/-- alternatives of the singular pattern \b(A patient|a patient|The patient|the patient)\b. -/
def pattern_s : List (List Char) :=
  ["A patient".toList, "a patient".toList, "The patient".toList, "the patient".toList]

/-- alternatives of the plural pattern \b(Patients|patients)\b. -/
def pattern_p : List (List Char) :=
  ["Patients".toList, "patients".toList]

/-- the core injector add_sensitive_to_question of
augment_equitymedqa_attributes.py: replace a generic patient reference in the
question by one naming the sensitive attribute, or return none (Python None)
when no recognized pattern is found. -/
def add_sensitive_to_question (question sensitive_attribute : List Char) :
    Option (List Char) :=
  let question_lower := pyStrip question
  if qualifiedSearch (question_lower.map Char.toLower) then
    if List.isPrefixOf "A patient ".toList question_lower then
      some ("A ".toList ++ sensitive_attribute ++ " patient ".toList ++ question.drop 10)
    else if List.isPrefixOf "a patient ".toList question_lower then
      some ("A ".toList ++ sensitive_attribute ++ " patient ".toList ++ question.drop 10)
    else none
  else
    match subFirst pattern_s ("A ".toList ++ sensitive_attribute ++ " patient".toList) false question with
    | some r => some r
    | none =>
        match subFirst pattern_p (sensitive_attribute ++ " patients".toList) false question with
        | some r => some r
        | none => none

/-- Python truthiness of an Optional[str]: None and the empty string are falsy. -/
def pyTruthy : Option (List Char) → Bool
  | none => false
  | some s => !s.isEmpty

/-- an input row of the vignette table (the fields the script reads). -/
structure Vignette where
  Vignette_Number : List Char
  Dataset_Source : List Char
  Original_Questions : List Char
  Generated_Vignette_Question : List Char
  Answer : List Char
deriving DecidableEq

/-- a row of a paired-comparison output table. -/
structure ComparisonRow where
  Vignette_Number : List Char
  Dataset_Source : List Char
  Original_Questions : List Char
  Question_Version_1 : List Char
  Attribute_1 : List Char
  Question_Version_2 : List Char
  Attribute_2 : List Char
  Expected_Answer : List Char
  Comparison_Type : List Char
deriving DecidableEq

/-- row loop of generate_paired_comparisons for one attribute pair: a
comparison row is appended exactly when both injected variants are truthy. -/
def generate_paired_comparisons (attribute_category attr1 attr2 : List Char)
    (rows : List Vignette) : List ComparisonRow :=
  rows.filterMap fun row =>
    let question_v1 := add_sensitive_to_question row.Generated_Vignette_Question attr1
    let question_v2 := add_sensitive_to_question row.Generated_Vignette_Question attr2
    if pyTruthy question_v1 && pyTruthy question_v2 then
      some ⟨row.Vignette_Number, row.Dataset_Source, row.Original_Questions,
            question_v1.getD [], attr1, question_v2.getD [], attr2,
            row.Answer, attribute_category⟩
    else none

/-- a row of a per-attribute output table: the input row shape plus the two
added attribute fields. -/
structure AugmentedVignette where
  Vignette_Number : List Char
  Dataset_Source : List Char
  Original_Questions : List Char
  Generated_Vignette_Question : List Char
  Answer : List Char
  Sensitive_Attribute_Category : List Char
  Sensitive_Attribute_Value : List Char
deriving DecidableEq

/-- per-row body of the generate_augmented_vignettes loop: on truthy
injection the question is replaced by the augmented text, otherwise the
original question is kept; the two attribute fields are set in both cases. -/
def augment_row (attribute_category attr : List Char) (row : Vignette) :
    AugmentedVignette :=
  let new_question := add_sensitive_to_question row.Generated_Vignette_Question attr
  if pyTruthy new_question then
    ⟨row.Vignette_Number, row.Dataset_Source, row.Original_Questions,
     new_question.getD [], row.Answer, attribute_category, attr⟩
  else
    ⟨row.Vignette_Number, row.Dataset_Source, row.Original_Questions,
     row.Generated_Vignette_Question, row.Answer, attribute_category, attr⟩

/-- the console warning emitted when injection fails for a row, modelled as
the pair of data interpolated into the printed message (vignette number and
attempted attribute). -/
def augment_warning (attr : List Char) (row : Vignette) :
    Option (List Char × List Char) :=
  if pyTruthy (add_sensitive_to_question row.Generated_Vignette_Question attr) then none
  else some (row.Vignette_Number, attr)

/-- row loop of generate_augmented_vignettes for one attribute: every input
row yields exactly one output row, and every failing row additionally yields
one warning. -/
def generate_augmented_vignettes (attribute_category attr : List Char)
    (rows : List Vignette) :
    List AugmentedVignette × List (List Char × List Char) :=
  (rows.map (augment_row attribute_category attr), rows.filterMap (augment_warning attr))

/-- whether the character just before position i of the text is a word
character; b is that information for position 0 (false at the true start of
the text). -/
def prevAt (b : Bool) (s : List Char) : Nat → Bool
  | 0 => b
  | i + 1 => headIsWordChar (s.drop i)

/-- there is a whole-word occurrence of one of the alternatives starting at
position i of the text: both boundaries hold and an alternative matches. -/
def wordMatchAt (alts : List (List Char)) (b : Bool) (s : List Char) (i : Nat) : Bool :=
  !prevAt b s i && (matchAlt alts (s.drop i)).isSome

theorem prevAt_cons (b : Bool) (c : Char) (s : List Char) (i : Nat) :
    prevAt b (c :: s) (i + 1) = prevAt (isWordChar c) s i := by
  cases i with
  | zero => rfl
  | succ j => rfl

theorem wordMatchAt_cons (alts : List (List Char)) (b : Bool) (c : Char)
    (s : List Char) (i : Nat) :
    wordMatchAt alts b (c :: s) (i + 1) = wordMatchAt alts (isWordChar c) s i := by
  simp only [wordMatchAt, prevAt_cons, List.drop_succ_cons]

theorem subFirst_cons_prevW (alts : List (List Char)) (repl : List Char)
    (c : Char) (s : List Char) :
    subFirst alts repl true (c :: s) =
      (subFirst alts repl (isWordChar c) s).map (fun r => c :: r) := by
  simp [subFirst]

theorem subFirst_cons_match (alts : List (List Char)) (repl : List Char)
    (c : Char) (s after : List Char) (h : matchAlt alts (c :: s) = some after) :
    subFirst alts repl false (c :: s) = some (repl ++ after) := by
  simp [subFirst, h]

theorem subFirst_cons_nomatch (alts : List (List Char)) (repl : List Char)
    (c : Char) (s : List Char) (h : matchAlt alts (c :: s) = none) :
    subFirst alts repl false (c :: s) =
      (subFirst alts repl (isWordChar c) s).map (fun r => c :: r) := by
  simp [subFirst, h]

theorem matchAlt_nil (alts : List (List Char)) (h : ∀ p ∈ alts, p ≠ []) :
    matchAlt alts [] = none := by
  induction alts with
  | nil => rfl
  | cons p ps ih =>
    cases p with
    | nil => exact absurd rfl (h [] (by simp))
    | cons a as =>
      simp only [matchAlt, List.isPrefixOf]
      simpa using ih fun q hq => h q (by simp [hq])

theorem subFirst_step (alts : List (List Char)) (repl : List Char) (b : Bool)
    (c : Char) (s : List Char)
    (h : wordMatchAt alts b (c :: s) 0 = false) :
    subFirst alts repl b (c :: s) =
      (subFirst alts repl (isWordChar c) s).map (fun r => c :: r) := by
  cases hb : b with
  | true => exact subFirst_cons_prevW alts repl c s
  | false =>
    refine subFirst_cons_nomatch alts repl c s ?_
    have h0 : (matchAlt alts (c :: s)).isSome = false := by
      simpa [wordMatchAt, prevAt, hb] using h
    exact Option.not_isSome_iff_eq_none.mp (by simp [h0])

theorem subFirst_eq_some_of_first (alts : List (List Char)) (repl : List Char)
    (halts : ∀ p ∈ alts, p ≠ []) :
    ∀ (i : Nat) (b : Bool) (s after : List Char),
      prevAt b s i = false →
      matchAlt alts (s.drop i) = some after →
      (∀ j, j < i → wordMatchAt alts b s j = false) →
      subFirst alts repl b s = some (s.take i ++ repl ++ after) := by
  intro i
  induction i with
  | zero =>
    intro b s after hb hm _
    have hb' : b = false := hb
    subst hb'
    cases s with
    | nil =>
      rw [List.drop_nil, matchAlt_nil alts halts] at hm
      exact absurd hm (by simp)
    | cons c rest =>
      rw [List.drop_zero] at hm
      rw [subFirst_cons_match alts repl c rest after hm]
      simp
  | succ i ih =>
    intro b s after hb hm hmin
    cases s with
    | nil =>
      rw [List.drop_nil, matchAlt_nil alts halts] at hm
      exact absurd hm (by simp)
    | cons c rest =>
      rw [subFirst_step alts repl b c rest (hmin 0 (Nat.succ_pos i))]
      rw [ih (isWordChar c) rest after ?_ ?_ ?_]
      · simp [List.take_succ_cons]
      · rw [← prevAt_cons b c rest i]; exact hb
      · exact hm
      · intro j hj
        rw [← wordMatchAt_cons alts b c rest j]
        exact hmin (j + 1) (Nat.succ_lt_succ hj)

theorem subFirst_eq_none (alts : List (List Char)) (repl : List Char) :
    ∀ (s : List Char) (b : Bool),
      (∀ j, wordMatchAt alts b s j = false) →
      subFirst alts repl b s = none := by
  intro s
  induction s with
  | nil => intro b _; rfl
  | cons c rest ih =>
    intro b h
    rw [subFirst_step alts repl b c rest (h 0)]
    rw [ih (isWordChar c) ?_]
    · rfl
    · intro j
      rw [← wordMatchAt_cons alts b c rest j]
      exact h (j + 1)

theorem wordMatchAt_eq_false_of_le (alts : List (List Char))
    (halts : ∀ p ∈ alts, p ≠ []) (b : Bool) (s : List Char) (i : Nat)
    (h : s.length ≤ i) : wordMatchAt alts b s i = false := by
  unfold wordMatchAt
  rw [List.drop_eq_nil_of_le h, matchAlt_nil alts halts]
  simp

theorem subFirst_eq_none_of_bounded (alts : List (List Char)) (repl : List Char)
    (halts : ∀ p ∈ alts, p ≠ []) (s : List Char) (b : Bool)
    (h : ∀ j, j < s.length → wordMatchAt alts b s j = false) :
    subFirst alts repl b s = none := by
  refine subFirst_eq_none alts repl s b fun j => ?_
  by_cases hj : j < s.length
  · exact h j hj
  · exact wordMatchAt_eq_false_of_le alts halts b s j (Nat.le_of_not_lt hj)

theorem subFirst_isSome_congr (alts : List (List Char)) (r1 r2 : List Char) :
    ∀ (s : List Char) (b : Bool),
      (subFirst alts r1 b s).isSome = (subFirst alts r2 b s).isSome := by
  intro s
  induction s with
  | nil => intro b; rfl
  | cons c rest ih =>
    intro b
    cases hb : b with
    | true =>
      rw [subFirst_cons_prevW, subFirst_cons_prevW]
      simp [ih]
    | false =>
      cases hm : matchAlt alts (c :: rest) with
      | some after =>
        rw [subFirst_cons_match alts r1 c rest after hm,
          subFirst_cons_match alts r2 c rest after hm]
        rfl
      | none =>
        rw [subFirst_cons_nomatch alts r1 c rest hm,
          subFirst_cons_nomatch alts r2 c rest hm]
        simp [ih]

theorem subFirst_ne_nil (alts : List (List Char)) (repl : List Char)
    (hr : repl ≠ []) :
    ∀ (s : List Char) (b : Bool) (r : List Char),
      subFirst alts repl b s = some r → r ≠ [] := by
  intro s
  induction s with
  | nil => intro b r h; exact absurd h (by simp [subFirst])
  | cons c rest ih =>
    intro b r h
    cases hb : b with
    | true =>
      rw [hb, subFirst_cons_prevW] at h
      rw [Option.map_eq_some'] at h
      obtain ⟨a, _, ha⟩ := h
      rw [← ha]
      exact List.cons_ne_nil c a
    | false =>
      rw [hb] at h
      cases hm : matchAlt alts (c :: rest) with
      | some after =>
        rw [subFirst_cons_match alts repl c rest after hm] at h
        have hr' : r = repl ++ after := by simpa using h.symm
        rw [hr']
        simp [List.append_eq_nil, hr]
      | none =>
        rw [subFirst_cons_nomatch alts repl c rest hm] at h
        rw [Option.map_eq_some'] at h
        obtain ⟨a, _, ha⟩ := h
        rw [← ha]
        exact List.cons_ne_nil c a

theorem pattern_s_ne_nil : ∀ p ∈ pattern_s, p ≠ [] := by decide

theorem pattern_p_ne_nil : ∀ p ∈ pattern_p, p ≠ [] := by decide

theorem add_sensitive_ne_nil (q a r : List Char)
    (h : add_sensitive_to_question q a = some r) : r ≠ [] := by
  unfold add_sensitive_to_question at h
  by_cases h1 : qualifiedSearch ((pyStrip q).map Char.toLower)
  · rw [if_pos h1] at h
    by_cases h2 : List.isPrefixOf "A patient ".toList (pyStrip q)
    · rw [if_pos h2] at h
      have hr : r = "A ".toList ++ a ++ " patient ".toList ++ q.drop 10 := by
        simpa using h.symm
      rw [hr]; simp [List.append_eq_nil]
    · rw [if_neg h2] at h
      by_cases h3 : List.isPrefixOf "a patient ".toList (pyStrip q)
      · rw [if_pos h3] at h
        have hr : r = "A ".toList ++ a ++ " patient ".toList ++ q.drop 10 := by
          simpa using h.symm
        rw [hr]; simp [List.append_eq_nil]
      · rw [if_neg h3] at h
        exact absurd h (by simp)
  · rw [if_neg h1] at h
    cases hs : subFirst pattern_s ("A ".toList ++ a ++ " patient".toList) false q with
    | some r1 =>
      rw [hs] at h
      have hr : r = r1 := by simpa using h.symm
      rw [hr]
      refine subFirst_ne_nil _ _ ?_ q false r1 hs
      simp [List.append_eq_nil]
    | none =>
      rw [hs] at h
      cases hp : subFirst pattern_p (a ++ " patients".toList) false q with
      | some r2 =>
        rw [hp] at h
        have hr : r = r2 := by simpa using h.symm
        rw [hr]
        refine subFirst_ne_nil _ _ ?_ q false r2 hp
        simp [List.append_eq_nil]
      | none => rw [hp] at h; exact absurd h (by simp)

theorem rdropWhile_append_of_ne_nil (p : Char → Bool) (l1 l2 : List Char)
    (h : List.rdropWhile p l2 ≠ []) :
    List.rdropWhile p (l1 ++ l2) = l1 ++ List.rdropWhile p l2 := by
  have h2 : l2.reverse.dropWhile p ≠ [] := by
    intro hc
    exact h (by simp [List.rdropWhile, hc])
  simp only [List.rdropWhile, List.reverse_append, List.dropWhile_append]
  rw [if_neg (by simpa [List.isEmpty_iff] using h2)]
  simp

theorem rdropWhile_append_of_forall (p : Char → Bool) (l1 l2 : List Char)
    (h : ∀ x ∈ l2, p x) :
    List.rdropWhile p (l1 ++ l2) = List.rdropWhile p l1 := by
  have h2 : l2.reverse.dropWhile p = [] := by
    rw [List.dropWhile_eq_nil_iff]
    intro x hx
    exact h x (List.mem_reverse.mp hx)
  simp only [List.rdropWhile, List.reverse_append, List.dropWhile_append]
  rw [if_pos (by simp [h2])]

theorem pyStrip_append_of_head_not_space (c : Char) (l1 l2 : List Char)
    (hc : pyIsSpace c = false) :
    pyStrip ((c :: l1) ++ l2) = List.rdropWhile pyIsSpace ((c :: l1) ++ l2) := by
  simp only [pyStrip, List.cons_append, List.dropWhile_cons, hc]
  simp

/-- C2: for a question that the already-qualified check accepts and whose
text begins with exactly "A patient " or exactly "a patient " (case
sensitive), the injector returns "A {attribute} patient " followed by the
original text from index 10 onward, verbatim. -/
theorem C2_qualified_leading_phrase (q a : List Char)
    (hq : alreadyQualified q = true)
    (hpre : List.isPrefixOf "A patient ".toList q = true ∨
      List.isPrefixOf "a patient ".toList q = true) :
    add_sensitive_to_question q a =
      some ("A ".toList ++ a ++ " patient ".toList ++ q.drop 10) := by
  rcases hpre with hA | ha
  · obtain ⟨r, hr⟩ := List.isPrefixOf_iff_prefix.mp hA
    subst hr
    have hstrip : pyStrip ("A patient ".toList ++ r) =
        List.rdropWhile pyIsSpace ("A patient ".toList ++ r) :=
      pyStrip_append_of_head_not_space 'A' " patient ".toList r (by decide)
    by_cases hall : ∀ x ∈ r, pyIsSpace x = true
    · exfalso
      have hdeg : pyStrip ("A patient ".toList ++ r) = "A patient".toList := by
        rw [hstrip, rdropWhile_append_of_forall pyIsSpace "A patient ".toList r hall]
        decide
      rw [alreadyQualified, hdeg] at hq
      exact absurd hq (by decide)
    · have hne : List.rdropWhile pyIsSpace r ≠ [] := by
        intro hc
        exact hall (List.rdropWhile_eq_nil_iff.mp hc)
      have hstrip2 : pyStrip ("A patient ".toList ++ r) =
          "A patient ".toList ++ List.rdropWhile pyIsSpace r := by
        rw [hstrip, rdropWhile_append_of_ne_nil pyIsSpace "A patient ".toList r hne]
      have hq' : qualifiedSearch ((pyStrip ("A patient ".toList ++ r)).map Char.toLower) = true := hq
      simp only [add_sensitive_to_question, hq', if_true]
      rw [if_pos ?_]
      · exact List.isPrefixOf_iff_prefix.mpr ⟨List.rdropWhile pyIsSpace r, by rw [hstrip2]⟩
  · obtain ⟨r, hr⟩ := List.isPrefixOf_iff_prefix.mp ha
    subst hr
    have hstrip : pyStrip ("a patient ".toList ++ r) =
        List.rdropWhile pyIsSpace ("a patient ".toList ++ r) :=
      pyStrip_append_of_head_not_space 'a' " patient ".toList r (by decide)
    by_cases hall : ∀ x ∈ r, pyIsSpace x = true
    · exfalso
      have hdeg : pyStrip ("a patient ".toList ++ r) = "a patient".toList := by
        rw [hstrip, rdropWhile_append_of_forall pyIsSpace "a patient ".toList r hall]
        decide
      rw [alreadyQualified, hdeg] at hq
      exact absurd hq (by decide)
    · have hne : List.rdropWhile pyIsSpace r ≠ [] := by
        intro hc
        exact hall (List.rdropWhile_eq_nil_iff.mp hc)
      have hstrip2 : pyStrip ("a patient ".toList ++ r) =
          "a patient ".toList ++ List.rdropWhile pyIsSpace r := by
        rw [hstrip, rdropWhile_append_of_ne_nil pyIsSpace "a patient ".toList r hne]
      have hq' : qualifiedSearch ((pyStrip ("a patient ".toList ++ r)).map Char.toLower) = true := hq
      simp only [add_sensitive_to_question, hq', if_true]
      rw [if_neg ?_, if_pos ?_]
      · exact List.isPrefixOf_iff_prefix.mpr ⟨List.rdropWhile pyIsSpace r, by rw [hstrip2]⟩
      · rw [hstrip2]
        simp [List.isPrefixOf]

/-- C2 witness: a question starting with "A patient " and containing
"who is" takes the leading-phrase rewrite path. -/
theorem C2_witness :
    alreadyQualified "A patient presents with pain who is diabetic".toList = true ∧
    add_sensitive_to_question "A patient presents with pain who is diabetic".toList
        "White".toList =
      some "A White patient presents with pain who is diabetic".toList :=
  ⟨by decide,
    by
      have h := C2_qualified_leading_phrase
        "A patient presents with pain who is diabetic".toList "White".toList
        (by decide) (Or.inl (by decide))
      rw [h]
      decide⟩

/-- C8: when the question has leading whitespace, passes the
already-qualified check, and its stripped text begins with "A patient " or
"a patient ", the injector succeeds and returns "A {attribute} patient "
followed by the unstripped original text from index 10 onward: the
leading-phrase test runs on the stripped text but the slice is taken from
the unstripped original. -/
theorem C8_stripped_check_unstripped_slice (q a : List Char)
    (_hws : ∃ c r, q = c :: r ∧ pyIsSpace c = true)
    (hq : alreadyQualified q = true)
    (hpre : List.isPrefixOf "A patient ".toList (pyStrip q) = true ∨
      List.isPrefixOf "a patient ".toList (pyStrip q) = true) :
    add_sensitive_to_question q a =
      some ("A ".toList ++ a ++ " patient ".toList ++ q.drop 10) := by
  have hq' : qualifiedSearch ((pyStrip q).map Char.toLower) = true := hq
  rcases hpre with hA | ha
  · simp only [add_sensitive_to_question, hq', if_true]
    rw [if_pos hA]
  · obtain ⟨w, hw⟩ := List.isPrefixOf_iff_prefix.mp ha
    simp only [add_sensitive_to_question, hq', if_true]
    rw [if_neg ?_, if_pos ha]
    rw [← hw]
    simp [List.isPrefixOf]

/-- C8 witness: a question with one leading space, a "who is" phrase, and a
stripped leading "a patient " phrase; the returned text keeps the leftover
space of the shifted slice. -/
theorem C8_witness :
    (∃ c r, " a patient who is ill".toList = c :: r ∧ pyIsSpace c = true) ∧
    add_sensitive_to_question " a patient who is ill".toList "Black".toList =
      some "A Black patient  who is ill".toList :=
  ⟨⟨' ', "a patient who is ill".toList, by decide, by decide⟩,
    by
      have h := C8_stripped_check_unstripped_slice
        " a patient who is ill".toList "Black".toList
        ⟨' ', "a patient who is ill".toList, by decide, by decide⟩
        (by decide) (Or.inr (by decide))
      rw [h]
      decide⟩

/-- C3 counterexample: this question contains "who is" (case-insensitively,
both in the raw and in the stripped text) and does not begin with
"A patient " or "a patient " (it begins with a space), yet the injector
succeeds instead of signalling NoMatch, because the leading-phrase test is
applied to the stripped text. -/
theorem C3_counterexample :
    qualifiedSearch (" a patient who is ill".toList.map Char.toLower) = true ∧
    alreadyQualified " a patient who is ill".toList = true ∧
    List.isPrefixOf "A patient ".toList " a patient who is ill".toList = false ∧
    List.isPrefixOf "a patient ".toList " a patient who is ill".toList = false ∧
    add_sensitive_to_question " a patient who is ill".toList "Black".toList ≠
      none := by
  refine ⟨by decide, by decide, by decide, by decide, ?_⟩
  decide

/-- C3 amended: for a question that passes the already-qualified check and
whose whitespace-stripped text does not begin with "A patient " or
"a patient ", the injector returns none, regardless of any other patient
reference in the text. -/
theorem C3_amended_no_leading_phrase (q a : List Char)
    (hq : alreadyQualified q = true)
    (h1 : List.isPrefixOf "A patient ".toList (pyStrip q) = false)
    (h2 : List.isPrefixOf "a patient ".toList (pyStrip q) = false) :
    add_sensitive_to_question q a = none := by
  have hq' : qualifiedSearch ((pyStrip q).map Char.toLower) = true := hq
  simp only [add_sensitive_to_question, hq', if_true]
  rw [if_neg (by simp only [h1]; exact Bool.false_ne_true),
    if_neg (by simp only [h2]; exact Bool.false_ne_true)]

/-- C3 amended witness: a question with "of Irish descent" that starts with
"The patient " is rejected outright. -/
theorem C3_amended_witness :
    alreadyQualified "The patient of Irish descent came in".toList = true ∧
    add_sensitive_to_question "The patient of Irish descent came in".toList
        "Black".toList = none :=
  ⟨by decide,
    C3_amended_no_leading_phrase "The patient of Irish descent came in".toList
      "Black".toList (by decide) (by decide) (by decide)⟩

/-- C1: for a question rejected by the already-qualified check whose first
whole-word singular patient reference (one of "A patient", "a patient",
"The patient", "the patient") starts at position i, the injector replaces
exactly that occurrence by "A {attribute} patient" and leaves every other
character unchanged; since the singular pattern is tried before the plural
one, this holds even when a plural reference is also present, wherever it
occurs. -/
theorem C1_singular_first_replacement (q a : List Char) (i : Nat) (after : List Char)
    (hq : alreadyQualified q = false)
    (_hb : '\\' ∉ a)
    (hprev : prevAt false q i = false)
    (hm : matchAlt pattern_s (q.drop i) = some after)
    (hmin : ∀ j, j < i → wordMatchAt pattern_s false q j = false) :
    add_sensitive_to_question q a =
      some (q.take i ++ ("A ".toList ++ a ++ " patient".toList) ++ after) := by
  have hq' : qualifiedSearch ((pyStrip q).map Char.toLower) = false := hq
  simp only [add_sensitive_to_question]
  rw [if_neg (by simp only [hq']; exact Bool.false_ne_true)]
  rw [subFirst_eq_some_of_first pattern_s ("A ".toList ++ a ++ " patient".toList)
    pattern_s_ne_nil i false q after hprev hm hmin]

/-- C1 witness: the singular reference is rewritten in place and the later
plural reference is untouched. -/
theorem C1_witness :
    add_sensitive_to_question "Today the patient met other patients.".toList
        "Black".toList =
      some "Today A Black patient met other patients.".toList := by
  have h := C1_singular_first_replacement
    "Today the patient met other patients.".toList "Black".toList 6
    " met other patients.".toList
    (by decide) (by decide) (by decide) (by decide) (by decide)
  rw [h]
  decide

/-- C4: for a question rejected by the already-qualified check with no
whole-word singular patient reference anywhere, whose first whole-word
plural reference ("Patients" or "patients") starts at position i, the
injector replaces exactly that occurrence by "{attribute} patients" and
leaves every other character unchanged. -/
theorem C4_plural_first_replacement (q a : List Char) (i : Nat) (after : List Char)
    (hq : alreadyQualified q = false)
    (_hb : '\\' ∉ a)
    (hnos : ∀ j, j < q.length → wordMatchAt pattern_s false q j = false)
    (hprev : prevAt false q i = false)
    (hm : matchAlt pattern_p (q.drop i) = some after)
    (hmin : ∀ j, j < i → wordMatchAt pattern_p false q j = false) :
    add_sensitive_to_question q a =
      some (q.take i ++ (a ++ " patients".toList) ++ after) := by
  have hq' : qualifiedSearch ((pyStrip q).map Char.toLower) = false := hq
  simp only [add_sensitive_to_question]
  rw [if_neg (by simp only [hq']; exact Bool.false_ne_true)]
  rw [subFirst_eq_none_of_bounded pattern_s ("A ".toList ++ a ++ " patient".toList)
    pattern_s_ne_nil q false hnos]
  rw [subFirst_eq_some_of_first pattern_p (a ++ " patients".toList)
    pattern_p_ne_nil i false q after hprev hm hmin]

/-- C4 witness: the first plural reference is rewritten in place. -/
theorem C4_witness :
    add_sensitive_to_question "Many patients recovered.".toList "Black".toList =
      some "Many Black patients recovered.".toList := by
  have h := C4_plural_first_replacement
    "Many patients recovered.".toList "Black".toList 5 " recovered.".toList
    (by decide) (by decide) (by decide) (by decide) (by decide) (by decide)
  rw [h]
  decide

/-- C5: for a question rejected by the already-qualified check with neither
a whole-word singular nor a whole-word plural patient reference anywhere,
the injector returns none; in particular text like "inpatient", whose
patient-like substring sits inside a longer word, never triggers a
replacement. -/
theorem C5_no_recognized_pattern (q a : List Char)
    (hq : alreadyQualified q = false)
    (hnos : ∀ j, j < q.length → wordMatchAt pattern_s false q j = false)
    (hnop : ∀ j, j < q.length → wordMatchAt pattern_p false q j = false) :
    add_sensitive_to_question q a = none := by
  have hq' : qualifiedSearch ((pyStrip q).map Char.toLower) = false := hq
  simp only [add_sensitive_to_question]
  rw [if_neg (by simp only [hq']; exact Bool.false_ne_true)]
  rw [subFirst_eq_none_of_bounded pattern_s ("A ".toList ++ a ++ " patient".toList)
    pattern_s_ne_nil q false hnos]
  rw [subFirst_eq_none_of_bounded pattern_p (a ++ " patients".toList)
    pattern_p_ne_nil q false hnop]

/-- C5 witness: a question whose only patient-like text is inside the word
"inpatient" yields none (word-boundary enforcement). -/
theorem C5_witness :
    add_sensitive_to_question "The inpatient ward was closed.".toList
        "Black".toList = none :=
  C5_no_recognized_pattern "The inpatient ward was closed.".toList "Black".toList
    (by decide) (by decide) (by decide)

/-- C9: whether injection succeeds depends only on the question text, never
on the attribute: for backslash-free attributes, injection with one
attribute returns none exactly when injection with any other does. -/
theorem C9_success_attribute_independent (q a1 a2 : List Char)
    (_h1 : '\\' ∉ a1) (_h2 : '\\' ∉ a2) :
    (add_sensitive_to_question q a1 = none ↔ add_sensitive_to_question q a2 = none) := by
  simp only [add_sensitive_to_question]
  by_cases hq : qualifiedSearch ((pyStrip q).map Char.toLower) = true
  · rw [if_pos hq, if_pos hq]
    by_cases hA : List.isPrefixOf "A patient ".toList (pyStrip q) = true
    · rw [if_pos hA, if_pos hA]
      simp
    · rw [if_neg hA, if_neg hA]
      by_cases ha : List.isPrefixOf "a patient ".toList (pyStrip q) = true
      · rw [if_pos ha, if_pos ha]
        simp
      · rw [if_neg ha, if_neg ha]
  · rw [if_neg hq, if_neg hq]
    cases hs1 : subFirst pattern_s ("A ".toList ++ a1 ++ " patient".toList) false q with
    | some x =>
      have hsome : (subFirst pattern_s ("A ".toList ++ a2 ++ " patient".toList) false q).isSome = true := by
        rw [← subFirst_isSome_congr pattern_s ("A ".toList ++ a1 ++ " patient".toList)
          ("A ".toList ++ a2 ++ " patient".toList) q false, hs1]
        rfl
      obtain ⟨y, hy⟩ := Option.isSome_iff_exists.mp hsome
      rw [hy]
      simp
    | none =>
      have hnone : subFirst pattern_s ("A ".toList ++ a2 ++ " patient".toList) false q = none := by
        refine Option.not_isSome_iff_eq_none.mp ?_
        rw [← subFirst_isSome_congr pattern_s ("A ".toList ++ a1 ++ " patient".toList)
          ("A ".toList ++ a2 ++ " patient".toList) q false, hs1]
        simp
      rw [hnone]
      cases hp1 : subFirst pattern_p (a1 ++ " patients".toList) false q with
      | some x =>
        have hsome : (subFirst pattern_p (a2 ++ " patients".toList) false q).isSome = true := by
          rw [← subFirst_isSome_congr pattern_p (a1 ++ " patients".toList)
            (a2 ++ " patients".toList) q false, hp1]
          rfl
        obtain ⟨y, hy⟩ := Option.isSome_iff_exists.mp hsome
        rw [hy]
        simp
      | none =>
        have hnone2 : subFirst pattern_p (a2 ++ " patients".toList) false q = none := by
          refine Option.not_isSome_iff_eq_none.mp ?_
          rw [← subFirst_isSome_congr pattern_p (a1 ++ " patients".toList)
            (a2 ++ " patients".toList) q false, hp1]
          simp
        rw [hnone2]

/-- C9 witness: two concrete attributes succeed or fail together on a
concrete question. -/
theorem C9_witness :
    ('\\' ∉ "White".toList) ∧
    (add_sensitive_to_question "The patient sleeps".toList "White".toList = none ↔
      add_sensitive_to_question "The patient sleeps".toList "Black".toList = none) :=
  ⟨by decide,
    C9_success_attribute_independent "The patient sleeps".toList "White".toList
      "Black".toList (by decide) (by decide)⟩

/-- C10: for every question and every backslash-free attribute the injector
is total: it returns either none or a non-empty string, and never anything
else. -/
theorem C10_total_none_or_nonempty (q a : List Char) (_hb : '\\' ∉ a) :
    add_sensitive_to_question q a = none ∨
      ∃ r, add_sensitive_to_question q a = some r ∧ r ≠ [] := by
  cases h : add_sensitive_to_question q a with
  | none => exact Or.inl rfl
  | some r => exact Or.inr ⟨r, rfl, add_sensitive_ne_nil q a r h⟩

/-- C10 witness: concrete instance of totality. -/
theorem C10_witness :
    add_sensitive_to_question "The patient rests".toList "Black".toList = none ∨
      ∃ r, add_sensitive_to_question "The patient rests".toList "Black".toList =
          some r ∧ r ≠ [] :=
  C10_total_none_or_nonempty "The patient rests".toList "Black".toList (by decide)

/-- C6: in paired-comparison generation, a row contributes exactly one
comparison row when injection succeeds for both attributes of the pair —
that row carrying the vignette identifier, dataset source, original
question, both augmented variants, both attribute values, the expected
answer and the category — and contributes nothing when injection fails for
either attribute; all other rows are unaffected. -/
theorem C6_paired_comparison_rows (cat a1 a2 : List Char)
    (pre post : List Vignette) (v : Vignette) :
    (∀ s1 s2, add_sensitive_to_question v.Generated_Vignette_Question a1 = some s1 →
        add_sensitive_to_question v.Generated_Vignette_Question a2 = some s2 →
      generate_paired_comparisons cat a1 a2 (pre ++ v :: post) =
        generate_paired_comparisons cat a1 a2 pre ++
          ⟨v.Vignette_Number, v.Dataset_Source, v.Original_Questions,
            s1, a1, s2, a2, v.Answer, cat⟩ ::
            generate_paired_comparisons cat a1 a2 post) ∧
    ((add_sensitive_to_question v.Generated_Vignette_Question a1 = none ∨
      add_sensitive_to_question v.Generated_Vignette_Question a2 = none) →
      generate_paired_comparisons cat a1 a2 (pre ++ v :: post) =
        generate_paired_comparisons cat a1 a2 pre ++
          generate_paired_comparisons cat a1 a2 post) := by
  constructor
  · intro s1 s2 h1 h2
    have e1 : s1.isEmpty = false := by
      cases s1 with
      | nil => exact absurd rfl (add_sensitive_ne_nil _ _ _ h1)
      | cons c t => rfl
    have e2 : s2.isEmpty = false := by
      cases s2 with
      | nil => exact absurd rfl (add_sensitive_ne_nil _ _ _ h2)
      | cons c t => rfl
    simp only [generate_paired_comparisons, List.filterMap_append, List.filterMap_cons,
      h1, h2, pyTruthy, e1, e2, Bool.not_false, Bool.and_self, if_true, Option.getD_some]
  · intro h
    rcases h with h | h
    · simp only [generate_paired_comparisons, List.filterMap_append, List.filterMap_cons,
        h, pyTruthy]
      simp
    · simp only [generate_paired_comparisons, List.filterMap_append, List.filterMap_cons,
        h, pyTruthy]
      simp

/-- C6 witness: a single row that injects for both attributes of the pair
yields exactly the one expected comparison row. -/
theorem C6_witness :
    generate_paired_comparisons "race_ethnicity".toList "White".toList "Black".toList
        [⟨"1".toList, "EquityMedQA".toList, "orig".toList,
          "The patient has a fever.".toList, "ans".toList⟩] =
      [⟨"1".toList, "EquityMedQA".toList, "orig".toList,
        "A White patient has a fever.".toList, "White".toList,
        "A Black patient has a fever.".toList, "Black".toList,
        "ans".toList, "race_ethnicity".toList⟩] := by
  have h := (C6_paired_comparison_rows "race_ethnicity".toList "White".toList
      "Black".toList [] []
      ⟨"1".toList, "EquityMedQA".toList, "orig".toList,
        "The patient has a fever.".toList, "ans".toList⟩).1
    "A White patient has a fever.".toList "A Black patient has a fever.".toList
    (by decide) (by decide)
  simpa [generate_paired_comparisons] using h

/-- C7: in per-attribute table generation every input row yields exactly one
output row in which all fields except the question are copied from the
input, the attribute-category and attribute-value fields are added in both
the success and the failure case, and the question field holds the
augmented text on success and the original text on failure; a failure
additionally emits exactly one console warning (modelled by its interpolated
data) and leaves every other row untouched. -/
theorem C7_per_attribute_rows (cat attr : List Char)
    (pre post : List Vignette) (v : Vignette) :
    (∀ s, add_sensitive_to_question v.Generated_Vignette_Question attr = some s →
      generate_augmented_vignettes cat attr (pre ++ v :: post) =
        ((generate_augmented_vignettes cat attr pre).1 ++
          ⟨v.Vignette_Number, v.Dataset_Source, v.Original_Questions,
            s, v.Answer, cat, attr⟩ ::
            (generate_augmented_vignettes cat attr post).1,
         (generate_augmented_vignettes cat attr pre).2 ++
            (generate_augmented_vignettes cat attr post).2)) ∧
    (add_sensitive_to_question v.Generated_Vignette_Question attr = none →
      generate_augmented_vignettes cat attr (pre ++ v :: post) =
        ((generate_augmented_vignettes cat attr pre).1 ++
          ⟨v.Vignette_Number, v.Dataset_Source, v.Original_Questions,
            v.Generated_Vignette_Question, v.Answer, cat, attr⟩ ::
            (generate_augmented_vignettes cat attr post).1,
         (generate_augmented_vignettes cat attr pre).2 ++
            (v.Vignette_Number, attr) ::
            (generate_augmented_vignettes cat attr post).2)) := by
  constructor
  · intro s hs
    have e1 : s.isEmpty = false := by
      cases s with
      | nil => exact absurd rfl (add_sensitive_ne_nil _ _ _ hs)
      | cons c t => rfl
    simp only [generate_augmented_vignettes, List.map_append, List.map_cons,
      List.filterMap_append, List.filterMap_cons, augment_row, augment_warning,
      hs, pyTruthy, e1, Bool.not_false, if_true, Option.getD_some]
  · intro hn
    simp only [generate_augmented_vignettes, List.map_append, List.map_cons,
      List.filterMap_append, List.filterMap_cons, augment_row, augment_warning,
      hn, pyTruthy]
    simp

/-- C7 witness: a single successfully injected row yields exactly one output
row with the two added attribute fields and no warning. -/
theorem C7_witness :
    generate_augmented_vignettes "race_ethnicity".toList "White".toList
        [⟨"1".toList, "EquityMedQA".toList, "orig".toList,
          "The patient has a fever.".toList, "ans".toList⟩] =
      ([⟨"1".toList, "EquityMedQA".toList, "orig".toList,
         "A White patient has a fever.".toList, "ans".toList,
         "race_ethnicity".toList, "White".toList⟩], []) := by
  have h := (C7_per_attribute_rows "race_ethnicity".toList "White".toList [] []
      ⟨"1".toList, "EquityMedQA".toList, "orig".toList,
        "The patient has a fever.".toList, "ans".toList⟩).1
    "A White patient has a fever.".toList (by decide)
  simpa [generate_augmented_vignettes] using h

end AutoFair
